import Mathlib

/-!
Verification of the heat-points sampling pipeline of WellBeingVilnius
(`src/app/routes/dev.py`, the registered blueprint, and its older duplicate
`src/app/routes/heat.py`).

Shallow embedding conventions:
* Python finite floats are modelled as rationals `ℚ`; the non-finite floats
  (`inf`, `-inf`, `nan`) get explicit constructors in `FVal`, with the float
  ordered-comparison semantics (`nan` compares false both ways).
* Property values are `PVal`: either a value on which `float(v)` succeeds
  (giving an `FVal`), or `PVal.bad`, on which `float(v)` raises.
* A `properties` value is `PropsVal`: a mapping (ordered key/value list, as a
  Python dict preserves insertion order) or a non-mapping with a truthiness
  flag (`feat.get("properties") or {}` replaces falsy values with `{}`;
  calling `.items()` on a non-mapping raises `AttributeError`).
* Coordinate entries are `Vtx`: a pair of rationals, or `Vtx.bad` for an
  entry failing the `isinstance(pt, (list, tuple)) and len(pt) >= 2` guard,
  which both geometry reducers skip structurally.
* Fallible code returns `Except Unit`; an uncaught exception inside the
  scan of the request is `.error ()` and surfaces through the outer
  `except Exception` handler of the route as HTTP 500.
-/

namespace WBV

/-- Model of a Python float value: finite (as `ℚ`), `inf`, `-inf` or `nan`. -/
inductive FVal where
  | fin (q : ℚ)
  | pinf
  | ninf
  | nan
deriving DecidableEq, Repr

/-- Model of `math.isfinite`. -/
def FVal.isFinite : FVal → Bool
  | .fin _ => true
  | _ => false

/-- Float `a < b` (comparisons with `nan` are false). -/
def FVal.flt : FVal → FVal → Bool
  | .nan, _ => false
  | _, .nan => false
  | .ninf, .ninf => false
  | .ninf, _ => true
  | .fin _, .ninf => false
  | .pinf, _ => false
  | .fin a, .fin b => decide (a < b)
  | .fin _, .pinf => true

/-- A Python property value, seen through `float(v)`: either `float(v)`
succeeds and yields `f`, or it raises (`bad`). -/
inductive PVal where
  | num (f : FVal)
  | bad
deriving DecidableEq, Repr

/-- A `properties` value of a feature: a mapping (insertion-ordered key/value
pairs) or a non-mapping with its truthiness. -/
inductive PropsVal where
  | dict (kvs : List (String × PVal))
  | nonDict (truthy : Bool)
deriving DecidableEq, Repr

/-- Model of `feat.get("properties") or {}`: falsy values are replaced by `{}`.
(An empty dict is falsy, but `{} or {}` is again `{}`.) -/
def propsOrEmpty : PropsVal → PropsVal
  | .dict kvs => .dict kvs
  | .nonDict b => if b then .nonDict true else .dict []

/-- Model of `props.get(k)` on a mapping (first binding wins; a dict has unique keys). -/
def lookupProp (kvs : List (String × PVal)) (k : String) : Option PVal :=
  (kvs.find? (fun kv => kv.1 = k)).map (fun kv => kv.2)

/-- Model of `k in props and math.isfinite(float(props.get(k)))`, with the
`try/except` around it: a missing key, a raising `float`, or a non-finite
value all yield `false`. -/
def finiteProp (kvs : List (String × PVal)) (k : String) : Bool :=
  match lookupProp kvs k with
  | some (.num f) => f.isFinite
  | _ => false

/-- The fixed fallback priority list of `_pick_weight_key`. -/
def priorityKeys : List String :=
  ["population", "pop", "density", "value", "count"]

/-- Behavior of `_pick_weight_key` on a mapping: the preferred key if present with a
finite value, else the first priority key with a finite value, else the
first property (in stored order) with a finite value, else `None`. -/
def pickWeightKeyDict (kvs : List (String × PVal)) (preferred : Option String) :
    Option String :=
  let prefHit : Option String :=
    match preferred with
    | some p => if p ≠ "" && finiteProp kvs p then some p else none
    | none => none
  match prefHit with
  | some p => some p
  | none =>
    match priorityKeys.find? (fun k => finiteProp kvs k) with
    | some k => some k
    | none =>
      (kvs.find? (fun kv =>
        match kv.2 with
        | .num f => f.isFinite
        | .bad => false)).map (fun kv => kv.1)

/-- Model of `_pick_weight_key(props, preferred)` (dev.py lines 138-157).
On a non-mapping `props` the final `props.items()` call raises
`AttributeError`, which is not caught inside the helper. -/
def pickWeightKey : PropsVal → Option String → Except Unit (Option String)
  | .nonDict _, _ => .error ()
  | .dict kvs, preferred => .ok (pickWeightKeyDict kvs preferred)

/-- A raw coordinate entry: a usable `[lon, lat, ...]` pair, or an entry
failing the `isinstance`/length guard. -/
inductive Vtx where
  | v (x y : ℚ)
  | bad
deriving DecidableEq, Repr

/-- A GeoJSON geometry value, as the reducers case on its `"type"`:
`unknown` covers mappings with an unrecognized or missing type. -/
inductive Geom where
  | point (c : Vtx)
  | multiPoint (cs : List Vtx)
  | polygon (rings : List (List Vtx))
  | multiPolygon (polys : List (List (List Vtx)))
  | collection (gs : List Geom)
  | unknown

/-- Model of `_coerce_lon_lat` (dev.py lines 27-45), after both inputs parsed to
finite floats: range-based order selection, then a final range check. -/
def coerceLonLat (fx fy : ℚ) : Option (ℚ × ℚ) :=
  let sel : Option (ℚ × ℚ) :=
    if |fx| ≤ 180 ∧ |fy| ≤ 90 then some (fx, fy)
    else if |fx| ≤ 90 ∧ |fy| ≤ 180 then some (fy, fx)
    else none
  match sel with
  | none => none
  | some (lon, lat) =>
    if -90 ≤ lat ∧ lat ≤ 90 ∧ -180 ≤ lon ∧ lon ≤ 180 then some (lon, lat)
    else none

/-- Coerce one ring entry: structurally bad entries and entries rejected by
`_coerce_lon_lat` are dropped. -/
def coerceVtx : Vtx → Option (ℚ × ℚ)
  | .bad => none
  | .v x y => coerceLonLat x y

def sumX (pts : List (ℚ × ℚ)) : ℚ := (pts.map Prod.fst).sum

def sumY (pts : List (ℚ × ℚ)) : ℚ := (pts.map Prod.snd).sum

/-- Model of `if pts[0] != pts[-1]: pts.append(pts[0])` (only reached on a nonempty
list in the source). -/
def closeRing (pts : List (ℚ × ℚ)) : List (ℚ × ℚ) :=
  match pts.head?, pts.getLast? with
  | some h, some l => if h = l then pts else pts ++ [h]
  | _, _ => pts

/-- The accumulation loop of `_ring_centroid`: over consecutive vertex
pairs, returns `(twice_area, cx, cy)`. -/
def shoelace : List (ℚ × ℚ) → ℚ × ℚ × ℚ
  | (x0, y0) :: (x1, y1) :: rest =>
    let t := shoelace ((x1, y1) :: rest)
    let cross := x0 * y1 - x1 * y0
    (t.1 + cross, t.2.1 + (x0 + x1) * cross, t.2.2 + (y0 + y1) * cross)
  | _ => (0, 0, 0)

/-- The degeneracy threshold `1e-12` of `_ring_centroid`. -/
def centroidEps : ℚ := 1 / 1000000000000

/-- Model of `_ring_centroid` (dev.py lines 48-84): valid vertices, `< 3` fallback to
their mean, close the ring, shoelace sums, degenerate fallback to the mean
of `pts[:-1]`, else the shoelace centroid `(cx, cy) / (3 * twice_area)`. -/
def ringCentroid (ring : List Vtx) : Option (ℚ × ℚ) :=
  let pts := ring.filterMap coerceVtx
  let n := pts.length
  if n < 3 then
    if n = 0 then none
    else some (sumX pts / n, sumY pts / n)
  else
    let ptsC := closeRing pts
    let s := shoelace ptsC
    if |s.1| < centroidEps then
      let base := ptsC.dropLast
      let m := base.length
      if 0 < m then some (sumX base / m, sumY base / m) else none
    else
      let factor := 1 / (3 * s.1)
      some (s.2.1 * factor, s.2.2 * factor)

mutual

/-- Model of `_geom_to_points` of dev.py (lines 98-135): emits `(lat, lon)` pairs. -/
def devGeomPoints : Geom → List (ℚ × ℚ)
  | .point c =>
    match coerceVtx c with
    | some (lon, lat) => [(lat, lon)]
    | none => []
  | .multiPoint cs =>
    cs.filterMap (fun c => (coerceVtx c).map (fun p => (p.2, p.1)))
  | .polygon rings =>
    match ringCentroid (rings.headD []) with
    | some (lon, lat) => [(lat, lon)]
    | none => []
  | .multiPolygon polys =>
    polys.filterMap (fun poly =>
      if poly.isEmpty then none
      else (ringCentroid (poly.headD [])).map (fun p => (p.2, p.1)))
  | .collection gs => devGeomPointsList gs
  | .unknown => []

/-- Recursive collection handling of the dev.py `_geom_to_points`. -/
def devGeomPointsList : List Geom → List (ℚ × ℚ)
  | [] => []
  | g :: gs => devGeomPoints g ++ devGeomPointsList gs

end

/-- Model of `if not geom: return []` — a falsy geometry value yields nothing. -/
def devGeomToPoints : Option Geom → List (ℚ × ℚ)
  | none => []
  | some g => devGeomPoints g

/-- Model of `_avg_centroid` of heat.py (lines 23-33): mean of the vertices.  Its
`math.isfinite` filter always passes on the rational model of finite
floats. -/
def avgCentroid (coords : List (ℚ × ℚ)) : Option (ℚ × ℚ) :=
  if coords.length = 0 then none
  else some (sumX coords / coords.length, sumY coords / coords.length)

/-- The structural vertex filter of the heat.py polygon branches:
`(pt[0], pt[1]) for pt in ring if isinstance(pt, (list, tuple)) and len(pt) >= 2`
(no coercion and no range validation). -/
def vtxPair : Vtx → Option (ℚ × ℚ)
  | .v x y => some (x, y)
  | .bad => none

mutual

/-- Model of `_geom_to_points` of heat.py (lines 36-72): no coordinate validation,
vertex-average polygon centroids, and only the first constituent polygon of
a MultiPolygon. -/
def heatGeomPoints : Geom → List (ℚ × ℚ)
  | .point c =>
    match vtxPair c with
    | some (x, y) => [(y, x)]
    | none => []
  | .multiPoint cs =>
    cs.filterMap (fun c => (vtxPair c).map (fun p => (p.2, p.1)))
  | .polygon rings =>
    match avgCentroid ((rings.headD []).filterMap vtxPair) with
    | some (lon, lat) => [(lat, lon)]
    | none => []
  | .multiPolygon polys =>
    let poly := polys.headD []
    if poly.isEmpty then []
    else
      match avgCentroid ((poly.headD []).filterMap vtxPair) with
      | some (lon, lat) => [(lat, lon)]
      | none => []
  | .collection gs => heatGeomPointsList gs
  | .unknown => []

/-- Recursive collection handling of the heat.py `_geom_to_points`. -/
def heatGeomPointsList : List Geom → List (ℚ × ℚ)
  | [] => []
  | g :: gs => heatGeomPoints g ++ heatGeomPointsList gs

end

/-- Model of the heat.py `if not geom: return []`. -/
def heatGeomToPoints : Option Geom → List (ℚ × ℚ)
  | none => []
  | some g => heatGeomPoints g

/-! ## The streaming scan of `heat_points` (dev.py lines 190-238) -/

/-- One item yielded by `ijson.items(f, "features.item")`: the loop skips
anything that is not a mapping (`if not isinstance(feat, dict): continue`). -/
inductive FeatItem where
  | notDict
  | mk (geometry : Option Geom) (properties : PropsVal)

/-- The per-request configuration derived from the query parameters. -/
structure Cfg where
  maxPoints : ℤ
  method : String
  weightParam : Option String
  minW : Option FVal
  maxW : Option FVal

/-- The mutable scan state of `heat_points`: the reservoir of
`(lat, lon, weight)` triples, `total_seen`, how many random draws were
consumed so far, and `chosen_weight_key`. -/
structure ScanState where
  reservoir : List (ℚ × ℚ × FVal)
  totalSeen : ℕ
  rngIdx : ℕ
  chosenKey : Option String
deriving DecidableEq, Repr

/-- Model of `try: weight_val = float(props.get(chosen_weight_key)) except: None` —
on a non-mapping `props.get` raises (caught), a missing key gives
`float(None)` (raises, caught), a `bad` value raises (caught). -/
def getWeightVal (props : PropsVal) (key : String) : Option FVal :=
  match props with
  | .nonDict _ => none
  | .dict kvs =>
    match lookupProp kvs key with
    | some (.num f) => some f
    | _ => none

/-- The inner `for lat, lon in pts` loop (dev.py lines 221-232): count the
point, append while below capacity, otherwise either reservoir-replace with
a fresh random index, or (`method == "first"`) break out of the point loop.
`g` supplies the pseudo-random draws: draw `k` is `g k`, reduced into
the `randint` inclusive range `[0, total_seen - 1]`. -/
def pointsLoop (cfg : Cfg) (g : ℕ → ℕ) (w : FVal) :
    ScanState → List (ℚ × ℚ) → ScanState
  | s, [] => s
  | s, (lat, lon) :: rest =>
    let s1 : ScanState := { s with totalSeen := s.totalSeen + 1 }
    if (s.reservoir.length : ℤ) < cfg.maxPoints then
      pointsLoop cfg g w
        { s1 with reservoir := s1.reservoir ++ [(lat, lon, w)] } rest
    else if cfg.method = "reservoir" then
      let j := g s1.rngIdx % s1.totalSeen
      let res :=
        if (j : ℤ) < cfg.maxPoints then s1.reservoir.set j (lat, lon, w)
        else s1.reservoir
      pointsLoop cfg g w { s1 with rngIdx := s1.rngIdx + 1, reservoir := res }
        rest
    else s1

/-- The per-feature body of the scan loop (dev.py lines 199-232): skip
non-mapping items, resolve the weight key while it is still `None`, read the
weight of the feature, apply the `min_weight` skip and the `max_weight` clamp,
reduce the geometry and run the point loop.  An uncaught exception inside
(`_pick_weight_key` on a truthy non-mapping `properties`) is `.error ()`. -/
def stepFeature (cfg : Cfg) (g : ℕ → ℕ) (s : ScanState) (it : FeatItem) :
    Except Unit ScanState :=
  match it with
  | .notDict => .ok s
  | .mk geom props0 =>
    let props := propsOrEmpty props0
    match (if s.chosenKey.isNone then pickWeightKey props cfg.weightParam
           else .ok s.chosenKey) with
    | .error e => .error e
    | .ok key =>
      let s := { s with chosenKey := key }
      let weightVal : Option FVal :=
        match key with
        | none => none
        | some k => getWeightVal props k
      let skip :=
        match cfg.minW, weightVal with
        | some mw, some wv => wv.flt mw
        | _, _ => false
      if skip then .ok s
      else
        let weightVal :=
          match cfg.maxW, weightVal with
          | some xw, some wv => if xw.flt wv then some xw else some wv
          | _, wv => wv
        let w : FVal :=
          match weightVal with
          | some (.fin q) => .fin q
          | _ => .fin 1
        .ok (pointsLoop cfg g w s (devGeomToPoints geom))

/-- The outer `for feat in items` loop with its `first`-method early break
(dev.py lines 199-234).  The boolean records whether the loop went on to
request the next item past the last yielded feature (`true`), or broke out
early (`false`) — only in the former case can a truncation error surface. -/
def featLoop (cfg : Cfg) (g : ℕ → ℕ) :
    ScanState → List FeatItem → Except Unit (ScanState × Bool)
  | s, [] => .ok (s, true)
  | s, it :: rest =>
    match stepFeature cfg g s it with
    | .error e => .error e
    | .ok s' =>
      if cfg.method = "first" ∧ cfg.maxPoints ≤ (s'.reservoir.length : ℤ) then
        .ok (s', false)
      else featLoop cfg g s' rest

/-! ## Weight normalization and response assembly (dev.py lines 240-277) -/

/-- Model of `i = max(0.1, min(1.0, i))`. -/
def clampI (i : ℚ) : ℚ := max (1 / 10) (min 1 i)

/-- Model of `weights = [w for _, _, w in reservoir if math.isfinite(w)]`. -/
def finiteWeights (reservoir : List (ℚ × ℚ × FVal)) : List ℚ :=
  reservoir.filterMap (fun t =>
    match t.2.2 with
    | .fin q => some q
    | _ => none)

/-- Lines 248-265: collect the finite weights, take their min/max (the
`math.isfinite` re-checks on `wmin`/`wmax` cannot fire, since both come from
a list of finite floats), and either emit every intensity as `1.0` with
reported bounds `(1.0, 1.0)`, or rescale-and-clamp each finite weight.
Returns `(points, weightMin, weightMax)`. -/
def normalizePoints (reservoir : List (ℚ × ℚ × FVal)) :
    List (ℚ × ℚ × ℚ) × ℚ × ℚ :=
  match finiteWeights reservoir with
  | [] => (reservoir.map (fun t => (t.1, t.2.1, (1 : ℚ))), 1, 1)
  | w0 :: ws =>
    let wmin := ws.foldl min w0
    let wmax := ws.foldl max w0
    if wmin = wmax then
      (reservoir.map (fun t => (t.1, t.2.1, (1 : ℚ))), 1, 1)
    else
      let span := wmax - wmin
      (reservoir.map (fun t =>
        let i0 : ℚ :=
          match t.2.2 with
          | .fin q => (q - wmin) / span
          | _ => 1
        (t.1, t.2.1, clampI i0)), wmin, wmax)

/-- The JSON body: the empty-reservoir response (lines 240-246) omits the
bound/echo fields; the full response carries them all. -/
inductive RespBody where
  | emptyR (weightKey : Option String) (total : ℕ)
  | fullR (points : List (ℚ × ℚ × ℚ)) (count : ℕ) (weightKey : Option String)
      (total : ℕ) (weightMin weightMax : ℚ) (file : String) (max : ℤ)
      (method : String)
deriving DecidableEq, Repr

/-- The HTTP outcome of the route: a JSON body or an `abort(code)`. -/
inductive HResp where
  | ok (body : RespBody)
  | err (code : ℕ)
deriving DecidableEq, Repr

/-- The points list of a response body. -/
def RespBody.points : RespBody → List (ℚ × ℚ × ℚ)
  | .emptyR _ _ => []
  | .fullR pts _ _ _ _ _ _ _ _ => pts

/-- The reported `total` of a response body. -/
def RespBody.total : RespBody → ℕ
  | .emptyR _ t => t
  | .fullR _ _ _ t _ _ _ _ _ => t

/-- The reported `weightKey` of a response body. -/
def RespBody.weightKey : RespBody → Option String
  | .emptyR k _ => k
  | .fullR _ _ k _ _ _ _ _ _ => k

/-- A source document as the incremental parser exposes it: the features it
yields, and whether asking for the next item past them raises
`IncompleteJSONError` (a malformed or truncated document). -/
structure Doc where
  features : List FeatItem
  truncated : Bool

/-- The query parameters, as parsed by Flask: absent parameters are `none`;
`max` is `int(...)` of the query value; `method` is the already-lowercased
string; `minW`/`maxW` are `float(...)` of their query values. -/
structure Params where
  file : Option String
  max : ℤ
  method : Option String
  weight : Option String
  minW : Option FVal
  maxW : Option FVal

/-- The default of the `file` query parameter. -/
def defaultFile : String := "population_ltu_2019-07-01.geojson"

/-- Model of `method = (request.args.get("method") or "reservoir").lower()` followed
by the fallback to `"reservoir"` for unrecognized values (the model takes
the query value already lowercased). -/
def reqMethod (p : Params) : String :=
  let m := p.method.getD "reservoir"
  if m = "reservoir" ∨ m = "first" then m else "reservoir"

/-- The scan configuration a request induces. -/
def reqCfg (p : Params) : Cfg :=
  ⟨p.max, reqMethod p, p.weight, p.minW, p.maxW⟩

/-- The `heat_points` route of dev.py (lines 160-277), over a file system
`fs` mapping a name to the document it holds (`none` when
`os.path.isfile` fails).  `g` is the stream of pseudo-random draws.

Note the error paths: a missing file aborts 404 before the file is opened;
an exception escaping the scan hits the outer `except Exception` and aborts
500; and when the iterator raises `IncompleteJSONError` the `abort(400)` of the inner handler raises an `HTTPException`, which is itself an `Exception`, so
the outer handler catches it and re-aborts with 500. -/
def heatPoints (g : ℕ → ℕ) (p : Params) (fs : String → Option Doc) : HResp :=
  let filename := p.file.getD defaultFile
  match fs filename with
  | none => .err 404
  | some doc =>
    match featLoop (reqCfg p) g ⟨[], 0, 0, none⟩ doc.features with
    | .error _ => .err 500
    | .ok (s, consumedAll) =>
      if consumedAll ∧ doc.truncated then .err 500
      else if s.reservoir.isEmpty then
        .ok (.emptyR s.chosenKey s.totalSeen)
      else
        let np := normalizePoints s.reservoir
        .ok (.fullR np.1 np.1.length s.chosenKey s.totalSeen np.2.1 np.2.2
          filename p.max (reqMethod p))

/-- Model of the deterministic stream of `random.Random(42)`: a fixed
linear-congruential stand-in.  Only its determinism matters to the claims;
the route always seeds with the constant `42`. -/
def seededRandom (seed : ℕ) : ℕ → ℕ :=
  fun i => (1103515245 * (seed + 1 + i) + 12345) % 2147483648

/-- One request dispatch.  `serverState` models any process-wide mutable
state of the serving process; the route constructs its generator and its
reservoir locally, reads nothing from shared state and writes nothing back,
so the state is passed through untouched. -/
def handleRequest (p : Params) (fs : String → Option Doc)
    (serverState : ℕ) : HResp × ℕ :=
  (heatPoints (seededRandom 42) p fs, serverState)

/-! ## Theorems -/

/-- Folding `min` over a list of copies of the start value is the start value. -/
theorem foldl_min_const (a : ℚ) (ws : List ℚ) (h : ∀ x ∈ ws, x = a) :
    ws.foldl min a = a := by
  induction ws with
  | nil => rfl
  | cons x ws ih =>
    have hx : x = a := h x (List.mem_cons_self x ws)
    simp only [List.foldl_cons, hx, min_self]
    exact ih (fun y hy => h y (List.mem_cons_of_mem x hy))

/-- Folding `max` over a list of copies of the start value is the start value. -/
theorem foldl_max_const (a : ℚ) (ws : List ℚ) (h : ∀ x ∈ ws, x = a) :
    ws.foldl max a = a := by
  induction ws with
  | nil => rfl
  | cons x ws ih =>
    have hx : x = a := h x (List.mem_cons_self x ws)
    simp only [List.foldl_cons, hx, max_self]
    exact ih (fun y hy => h y (List.mem_cons_of_mem x hy))

/-- C5 counterexample: the sampled finite weights `[10, 20, 30]` are emitted
with intensities `[0.1, 0.5, 1.0]` — the middle intensity is
`clamp((20 - 10) / (30 - 10), 0.1, 1.0) = 0.5`, not `0.55`. -/
theorem weights_10_20_30_intensities :
    (normalizePoints [(0, 0, .fin 10), (0, 0, .fin 20), (0, 0, .fin 30)]).1
      = [(0, 0, 1/10), (0, 0, 1/2), (0, 0, 1)] ∧
    ((1 : ℚ)/2) ≠ 11/20 := by
  constructor
  · norm_num [normalizePoints, finiteWeights, clampI, List.filterMap_cons]
  · norm_num

/-- C5 amended: the weights `[10, 20, 30]` yield intensities
`[0.1, 0.5, 1.0]`; and whenever no finite weight exists, or all finite
weights are equal, the intensity of every point is `1.0` and the reported
`weightMin` and `weightMax` are both `1.0` (with the points otherwise kept
one-for-one, in order). -/
theorem normalize_equal_weights_all_one (res : List (ℚ × ℚ × FVal))
    (h : finiteWeights res = [] ∨
      ∀ a ∈ finiteWeights res, ∀ b ∈ finiteWeights res, a = b) :
    (normalizePoints res).1 = res.map (fun t => (t.1, t.2.1, (1 : ℚ))) ∧
    (normalizePoints res).2 = (1, 1) ∧
    (normalizePoints
        [(0, 0, .fin 10), (0, 0, .fin 20), (0, 0, .fin 30)]).1.map
      (fun t => t.2.2) = [1/10, 1/2, 1] := by
  have hconc : (normalizePoints
      [((0 : ℚ), (0 : ℚ), FVal.fin 10), (0, 0, .fin 20), (0, 0, .fin 30)]).1.map
      (fun t => t.2.2) = [1/10, 1/2, 1] := by
    norm_num [normalizePoints, finiteWeights, clampI, List.filterMap_cons]
  have key : normalizePoints res =
      (res.map (fun t => (t.1, t.2.1, (1 : ℚ))), 1, 1) := by
    rcases hw : finiteWeights res with _ | ⟨w0, ws⟩
    · simp only [normalizePoints, hw]
    · have hall : ∀ x ∈ ws, x = w0 := by
        rcases h with h | h
        · rw [hw] at h
          exact absurd h (List.cons_ne_nil w0 ws)
        · intro x hx
          exact h x (hw ▸ List.mem_cons_of_mem w0 hx) w0
            (hw ▸ List.mem_cons_self w0 ws)
      simp only [normalizePoints, hw]
      rw [foldl_min_const w0 ws hall, foldl_max_const w0 ws hall, if_pos rfl]
  exact ⟨by rw [key], by rw [key], hconc⟩

/-- C5 amended witness: a reservoir whose finite weights are all `5` is
emitted with every intensity `1.0` and reported bounds `(1.0, 1.0)`. -/
theorem normalize_equal_weights_all_one_witness :
    (normalizePoints [((1 : ℚ), (2 : ℚ), FVal.fin 5), (3, 4, .fin 5)]).1 =
      [((1 : ℚ), (2 : ℚ), FVal.fin 5), (3, 4, .fin 5)].map
        (fun t => (t.1, t.2.1, (1 : ℚ))) ∧
    (normalizePoints [((1 : ℚ), (2 : ℚ), FVal.fin 5), (3, 4, .fin 5)]).2 =
      (1, 1) ∧
    (normalizePoints
        [(0, 0, .fin 10), (0, 0, .fin 20), (0, 0, .fin 30)]).1.map
      (fun t => t.2.2) = [1/10, 1/2, 1] :=
  normalize_equal_weights_all_one
    [((1 : ℚ), (2 : ℚ), FVal.fin 5), (3, 4, .fin 5)]
    (Or.inr (by decide))

/-- C6: for finite inputs, `_coerce_lon_lat` returns `(lon=x, lat=y)` when
`|x| ≤ 180` and `|y| ≤ 90`, the swap-corrected `(lon=y, lat=x)` when that
first test fails but `|x| ≤ 90` and `|y| ≤ 180`, and nothing otherwise; in
particular `(45, 10) ↦ (lon=45, lat=10)` and `(100, 95)` is invalid, and a
structurally invalid entry is rejected. -/
theorem coerce_lon_lat_spec :
    (∀ x y : ℚ,
      (|x| ≤ 180 ∧ |y| ≤ 90 → coerceLonLat x y = some (x, y)) ∧
      (¬(|x| ≤ 180 ∧ |y| ≤ 90) → |x| ≤ 90 ∧ |y| ≤ 180 →
        coerceLonLat x y = some (y, x)) ∧
      (¬(|x| ≤ 180 ∧ |y| ≤ 90) → ¬(|x| ≤ 90 ∧ |y| ≤ 180) →
        coerceLonLat x y = none)) ∧
    coerceLonLat 45 10 = some (45, 10) ∧
    coerceLonLat 100 95 = none ∧
    coerceVtx .bad = none := by
  refine ⟨?_, by decide, by decide, rfl⟩
  intro x y
  refine ⟨?_, ?_, ?_⟩
  · intro h
    have h1 := abs_le.mp h.1
    have h2 := abs_le.mp h.2
    simp only [coerceLonLat, if_pos h]
    rw [if_pos ⟨h2.1, h2.2, h1.1, h1.2⟩]
  · intro hn h
    have h1 := abs_le.mp h.1
    have h2 := abs_le.mp h.2
    simp only [coerceLonLat, if_neg hn, if_pos h]
    rw [if_pos ⟨h1.1, h1.2, h2.1, h2.2⟩]
  · intro hn1 hn2
    simp only [coerceLonLat, if_neg hn1, if_neg hn2]

/-- C6 witness: the theorem applied at the concrete pair `(45, 10)`. -/
theorem coerce_lon_lat_spec_witness :
    coerceLonLat 45 10 = some (45, 10) :=
  (coerce_lon_lat_spec.1 45 10).1 (by norm_num)

/-- C10: the two duplicate geometry reducers differ on a plain Polygon:
the dev.py shoelace centroid of the triangle `(0,0),(10,0),(0,10)` is
`(10/3, 10/3)`, while the heat.py vertex average over the closed ring is
`(5/2, 5/2)`. -/
theorem dev_heat_reducers_diverge_on_polygon :
    devGeomToPoints
        (some (.polygon [[.v 0 0, .v 10 0, .v 0 10, .v 0 0]])) ≠
      heatGeomToPoints
        (some (.polygon [[.v 0 0, .v 10 0, .v 0 10, .v 0 0]])) ∧
    devGeomToPoints
        (some (.polygon [[.v 0 0, .v 10 0, .v 0 10, .v 0 0]])) =
      [(10/3, 10/3)] ∧
    heatGeomToPoints
        (some (.polygon [[.v 0 0, .v 10 0, .v 0 10, .v 0 0]])) =
      [(5/2, 5/2)] := by
  have hdev : devGeomToPoints
      (some (.polygon [[.v 0 0, .v 10 0, .v 0 10, .v 0 0]])) =
      [((10 : ℚ)/3, (10 : ℚ)/3)] := by
    norm_num [devGeomToPoints, devGeomPoints, ringCentroid, closeRing,
      shoelace, coerceVtx, coerceLonLat, sumX, sumY, centroidEps,
      List.filterMap_cons]
  have hheat : heatGeomToPoints
      (some (.polygon [[.v 0 0, .v 10 0, .v 0 10, .v 0 0]])) =
      [((5 : ℚ)/2, (5 : ℚ)/2)] := by
    norm_num [heatGeomToPoints, heatGeomPoints, avgCentroid, vtxPair, sumX,
      sumY, List.filterMap_cons]
  refine ⟨?_, hdev, hheat⟩
  rw [hdev, hheat]
  intro h
  have := List.head_eq_of_cons_eq h
  rw [Prod.ext_iff] at this
  norm_num at this

/-- The signed twice-area of the spec, `A2 = Σ (xi * yi+1 - xi+1 * yi)` over
consecutive vertex pairs of a (closed) ring — written from the formula
of the spec, independently of `shoelace`, for comparison. -/
def specTwiceArea (pts : List (ℚ × ℚ)) : ℚ :=
  ((pts.zip pts.tail).map
    (fun pq => pq.1.1 * pq.2.2 - pq.2.1 * pq.1.2)).sum

/-- Numerator of the `Cx` of the spec: `Σ ((xi + xi+1) * (xi * yi+1 - xi+1 * yi))`. -/
def specCxNum (pts : List (ℚ × ℚ)) : ℚ :=
  ((pts.zip pts.tail).map
    (fun pq => (pq.1.1 + pq.2.1) * (pq.1.1 * pq.2.2 - pq.2.1 * pq.1.2))).sum

/-- Numerator of the `Cy` of the spec. -/
def specCyNum (pts : List (ℚ × ℚ)) : ℚ :=
  ((pts.zip pts.tail).map
    (fun pq => (pq.1.2 + pq.2.2) * (pq.1.1 * pq.2.2 - pq.2.1 * pq.1.2))).sum

/-- The centroid abscissa of the spec, `Cx = Σ(...) / (3 * A2)`. -/
def specCentroidX (pts : List (ℚ × ℚ)) : ℚ :=
  specCxNum pts / (3 * specTwiceArea pts)

/-- The centroid ordinate of the spec, `Cy`. -/
def specCentroidY (pts : List (ℚ × ℚ)) : ℚ :=
  specCyNum pts / (3 * specTwiceArea pts)

/-- The accumulation loop of the code computes exactly the three sums of the spec. -/
theorem shoelace_eq_spec (l : List (ℚ × ℚ)) :
    shoelace l = (specTwiceArea l, specCxNum l, specCyNum l) := by
  induction l with
  | nil => simp [shoelace, specTwiceArea, specCxNum, specCyNum]
  | cons a l ih =>
    cases l with
    | nil =>
      obtain ⟨x0, y0⟩ := a
      simp [shoelace, specTwiceArea, specCxNum, specCyNum]
    | cons b m =>
      obtain ⟨x0, y0⟩ := a
      obtain ⟨x1, y1⟩ := b
      rw [shoelace, ih]
      simp only [specTwiceArea, specCxNum, specCyNum, List.tail_cons,
        List.zip_cons_cons, List.map_cons, List.sum_cons]
      refine Prod.ext ?_ (Prod.ext ?_ ?_) <;> simp <;> ring

/-- C2 counterexample: a Polygon whose exterior ring has no valid vertex
emits zero points, not exactly one. -/
theorem polygon_empty_ring_emits_nothing :
    devGeomToPoints (some (.polygon [[Vtx.bad]])) = [] ∧
    (devGeomToPoints (some (.polygon [[Vtx.bad]]))).length ≠ 1 := by
  decide

/-- C2 amended: for every Polygon whose exterior ring has at least 3 valid
vertices and whose closed ring is non-degenerate (`|A2| ≥ 1e-12`), the
reducer emits exactly one point, the shoelace centroid of the closed
exterior ring per the formula of the spec (as a `(lat, lon)` pair); and the ring
`[[0,0],[4,0],[4,4],[0,4],[0,0]]` yields the centroid `(2, 2)` exactly. -/
theorem polygon_shoelace_centroid (ring : List Vtx) (rest : List (List Vtx))
    (h3 : 3 ≤ (ring.filterMap coerceVtx).length)
    (hnd : centroidEps ≤
      |specTwiceArea (closeRing (ring.filterMap coerceVtx))|) :
    devGeomToPoints (some (.polygon (ring :: rest))) =
      [(specCentroidY (closeRing (ring.filterMap coerceVtx)),
        specCentroidX (closeRing (ring.filterMap coerceVtx)))] ∧
    devGeomToPoints
        (some (.polygon [[.v 0 0, .v 4 0, .v 4 4, .v 0 4, .v 0 0]])) =
      [(2, 2)] := by
  constructor
  · simp only [devGeomToPoints, devGeomPoints, List.headD_cons]
    rw [ringCentroid]
    simp only [if_neg (by omega : ¬(ring.filterMap coerceVtx).length < 3),
      shoelace_eq_spec]
    rw [if_neg (not_lt.mpr hnd)]
    simp only [specCentroidX, specCentroidY, mul_one_div]
  · norm_num [devGeomToPoints, devGeomPoints, ringCentroid, closeRing,
      shoelace, coerceVtx, coerceLonLat, sumX, sumY, centroidEps,
      List.filterMap_cons]

/-- C2 amended witness: the theorem applied to the concrete square ring. -/
theorem polygon_shoelace_centroid_witness :
    devGeomToPoints
        (some (.polygon [[.v 0 0, .v 4 0, .v 4 4, .v 0 4, .v 0 0]])) =
      [(specCentroidY (closeRing
          ([Vtx.v 0 0, .v 4 0, .v 4 4, .v 0 4, .v 0 0].filterMap coerceVtx)),
        specCentroidX (closeRing
          ([Vtx.v 0 0, .v 4 0, .v 4 4, .v 0 4, .v 0 0].filterMap coerceVtx)))] :=
  (polygon_shoelace_centroid [Vtx.v 0 0, .v 4 0, .v 4 4, .v 0 4, .v 0 0] []
    (by decide)
    (by norm_num [closeRing, specTwiceArea, coerceVtx, coerceLonLat,
      centroidEps, List.filterMap_cons])).1

/-- Closing a ring never shortens it. -/
theorem closeRing_length_ge (pts : List (ℚ × ℚ)) :
    pts.length ≤ (closeRing pts).length := by
  unfold closeRing
  cases h1 : pts.head? <;> cases h2 : pts.getLast? <;> simp
  split <;> simp

/-- C9 counterexample: on the already-closed collinear ring
`[[0,0],[2,0],[4,0],[0,0]]` the code returns `(2, 0)` — the mean of the
closed vertex list minus its final entry — while the arithmetic mean of all
four valid vertices is `(3/2, 0)`. -/
theorem closed_collinear_ring_mean_differs :
    ringCentroid [.v 0 0, .v 2 0, .v 4 0, .v 0 0] = some (2, 0) ∧
    sumX ([Vtx.v 0 0, .v 2 0, .v 4 0, .v 0 0].filterMap coerceVtx) /
        (([Vtx.v 0 0, .v 2 0, .v 4 0, .v 0 0].filterMap coerceVtx).length : ℚ)
      = 3/2 ∧
    ((2 : ℚ), (0 : ℚ)) ≠ ((3/2 : ℚ), (0 : ℚ)) := by
  refine ⟨?_, ?_, by norm_num [Prod.ext_iff]⟩
  · norm_num [ringCentroid, closeRing, shoelace, coerceVtx, coerceLonLat,
      sumX, sumY, centroidEps, List.filterMap_cons]
  · norm_num [sumX, coerceVtx, coerceLonLat, List.filterMap_cons]

/-- C9 amended: a ring with no valid vertices yields no point; with fewer
than 3 valid vertices the centroid is the arithmetic mean of the valid
vertices; with at least 3 valid vertices but a degenerate closed ring
(`|A2| < 1e-12`) it is the arithmetic mean of the closed vertex list minus
its final (closing) entry.  Every divisor involved is nonzero, so no
division by zero and no NaN is ever produced. -/
theorem ring_centroid_degenerate_safe (ring : List Vtx) :
    (ring.filterMap coerceVtx = [] → ringCentroid ring = none) ∧
    (ring.filterMap coerceVtx ≠ [] →
      (ring.filterMap coerceVtx).length < 3 →
      ringCentroid ring =
        some (sumX (ring.filterMap coerceVtx) /
                ((ring.filterMap coerceVtx).length : ℚ),
              sumY (ring.filterMap coerceVtx) /
                ((ring.filterMap coerceVtx).length : ℚ)) ∧
      ((ring.filterMap coerceVtx).length : ℚ) ≠ 0) ∧
    (3 ≤ (ring.filterMap coerceVtx).length →
      |(shoelace (closeRing (ring.filterMap coerceVtx))).1| < centroidEps →
      ringCentroid ring =
        some (sumX ((closeRing (ring.filterMap coerceVtx)).dropLast) /
                (((closeRing (ring.filterMap coerceVtx)).dropLast).length : ℚ),
              sumY ((closeRing (ring.filterMap coerceVtx)).dropLast) /
                (((closeRing (ring.filterMap coerceVtx)).dropLast).length : ℚ)) ∧
      (((closeRing (ring.filterMap coerceVtx)).dropLast).length : ℚ) ≠ 0) ∧
    (3 ≤ (ring.filterMap coerceVtx).length →
      centroidEps ≤ |(shoelace (closeRing (ring.filterMap coerceVtx))).1| →
      3 * (shoelace (closeRing (ring.filterMap coerceVtx))).1 ≠ 0) := by
  refine ⟨?_, ?_, ?_, ?_⟩
  · intro h
    simp [ringCentroid, h]
  · intro hne hlt
    have hn : (ring.filterMap coerceVtx).length ≠ 0 := by
      simpa [List.length_eq_zero] using hne
    rw [ringCentroid]
    rw [if_pos hlt, if_neg hn]
    exact ⟨rfl, Nat.cast_ne_zero.mpr hn⟩
  · intro h3 hdeg
    have hclen : 3 ≤ (closeRing (ring.filterMap coerceVtx)).length :=
      le_trans h3 (closeRing_length_ge _)
    have hm : 0 < ((closeRing (ring.filterMap coerceVtx)).dropLast).length := by
      rw [List.length_dropLast]
      omega
    rw [ringCentroid]
    rw [if_neg (by omega : ¬(ring.filterMap coerceVtx).length < 3),
      if_pos hdeg, if_pos hm]
    exact ⟨rfl, Nat.cast_ne_zero.mpr (by omega)⟩
  · intro h3 hnd
    have heps : (0 : ℚ) < centroidEps := by norm_num [centroidEps]
    have : (shoelace (closeRing (ring.filterMap coerceVtx))).1 ≠ 0 :=
      abs_pos.mp (lt_of_lt_of_le heps hnd)
    exact mul_ne_zero three_ne_zero this

/-- C9 amended witness: the unclosed collinear ring `[[0,0],[2,0],[4,0]]`
takes the degenerate fallback and yields the mean `(2, 0)`. -/
theorem ring_centroid_degenerate_safe_witness :
    ringCentroid [Vtx.v 0 0, .v 2 0, .v 4 0] =
      some (sumX ((closeRing
              ([Vtx.v 0 0, .v 2 0, .v 4 0].filterMap coerceVtx)).dropLast) /
              (((closeRing
                ([Vtx.v 0 0, .v 2 0, .v 4 0].filterMap coerceVtx)).dropLast).length : ℚ),
            sumY ((closeRing
              ([Vtx.v 0 0, .v 2 0, .v 4 0].filterMap coerceVtx)).dropLast) /
              (((closeRing
                ([Vtx.v 0 0, .v 2 0, .v 4 0].filterMap coerceVtx)).dropLast).length : ℚ)) ∧
    (((closeRing
        ([Vtx.v 0 0, .v 2 0, .v 4 0].filterMap coerceVtx)).dropLast).length : ℚ) ≠ 0 :=
  (ring_centroid_degenerate_safe [Vtx.v 0 0, .v 2 0, .v 4 0]).2.2.1
    (by norm_num [coerceVtx, coerceLonLat, List.filterMap_cons])
    (by norm_num [closeRing, shoelace, coerceVtx, coerceLonLat, centroidEps,
      List.filterMap_cons])

/-- C4: repeated identical requests produce identical responses: the
response does not depend on the ambient server state (there is no shared
mutable sampler state, and the generator is seeded with the fixed constant
`42` inside `handleRequest`), and a request leaves that state unchanged. -/
theorem identical_requests_identical_responses (p : Params)
    (fs : String → Option Doc) (s0 s1 : ℕ) :
    (handleRequest p fs s0).1 = (handleRequest p fs s1).1 ∧
    (handleRequest p fs (handleRequest p fs s0).2).1 =
      (handleRequest p fs s0).1 ∧
    (handleRequest p fs s0).2 = s0 :=
  ⟨rfl, rfl, rfl⟩

/-- C1: a missing file aborts with 404, but a truncated document aborts
with 500, not 400: the inner `abort(400)` raises a `werkzeug`
`HTTPException`, which the outer `except Exception` catches and converts
into `abort(500)`.  Moreover, with `method=first` the scan can break before
reaching the truncation point and return a seemingly-successful response
for a truncated document. -/
theorem truncated_document_aborts_500_not_400 :
    heatPoints (fun _ => 0) ⟨some "x", 50000, none, none, none, none⟩
        (fun _ => none) = .err 404 ∧
    heatPoints (fun _ => 0) ⟨some "x", 50000, none, none, none, none⟩
        (fun _ => some ⟨[.mk (some (.point (.v 25 54))) (.dict [])], true⟩) =
      .err 500 ∧
    HResp.err 500 ≠ .err 400 ∧
    heatPoints (fun _ => 0) ⟨some "x", 1, some "first", none, none, none⟩
        (fun _ => some ⟨[.mk (some (.point (.v 25 54))) (.dict [])], true⟩) =
      .ok (.fullR [(54, 25, 1)] 1 none 1 1 1 "x" 1 "first") := by
  refine ⟨by decide, by decide, by decide, by decide⟩

/-- The point loop never touches `chosen_weight_key`. -/
theorem pointsLoop_chosenKey (cfg : Cfg) (g : ℕ → ℕ) (w : FVal) :
    ∀ pts s, (pointsLoop cfg g w s pts).chosenKey = s.chosenKey := by
  intro pts
  induction pts with
  | nil => intro s; rfl
  | cons p rest ih =>
    intro s
    obtain ⟨lat, lon⟩ := p
    rw [pointsLoop]
    split_ifs <;> simp [ih]

/-- Once the weight key is resolved, a successful feature step keeps it. -/
theorem stepFeature_keeps_key (cfg : Cfg) (g : ℕ → ℕ) (s : ScanState)
    (it : FeatItem) (k : String) (hk : s.chosenKey = some k) :
    ∀ s', stepFeature cfg g s it = .ok s' → s'.chosenKey = some k := by
  intro s' h
  cases it with
  | notDict =>
    simp only [stepFeature] at h
    cases h
    exact hk
  | mk geom props =>
    simp only [stepFeature, hk, Option.isNone_some, Bool.false_eq_true,
      if_false] at h
    split_ifs at h <;> cases h <;> simp [pointsLoop_chosenKey, hk]

/-- Once the weight key is resolved, the whole remaining scan keeps it. -/
theorem featLoop_keeps_key (cfg : Cfg) (g : ℕ → ℕ) (k : String) :
    ∀ feats s out, s.chosenKey = some k →
      featLoop cfg g s feats = .ok out → out.1.chosenKey = some k := by
  intro feats
  induction feats with
  | nil =>
    intro s out hk h
    cases h
    exact hk
  | cons it rest ih =>
    intro s out hk h
    rw [featLoop] at h
    cases hsf : stepFeature cfg g s it with
    | error e =>
      simp only [hsf] at h
      exact Except.noConfusion h
    | ok s' =>
      simp only [hsf] at h
      have hk' := stepFeature_keeps_key cfg g s it k hk s' hsf
      split at h
      · injection h with h2
        rw [← h2]
        exact hk'
      · exact ih s' out hk' h

/-- C7 counterexample: the first feature has no numeric property, so the
key stays `None` and is re-resolved against the second feature, ending as
`"population"` — it is not fixed by evaluation against the first feature
(which yields `None`). -/
theorem weight_key_resolved_from_second_feature :
    featLoop ⟨50000, "reservoir", none, none, none⟩ (fun _ => 0)
        ⟨[], 0, 0, none⟩
        [.mk none (.dict []),
         .mk none (.dict [("population", .num (.fin 5))])] =
      .ok (⟨[], 0, 0, some "population"⟩, true) ∧
    pickWeightKey (.dict []) none = .ok none := by
  exact ⟨rfl, rfl⟩

/-- C7 amended: the weight key is re-resolved against each successive
feature while it is still unresolved (`None`); the first feature yielding a
key fixes it for the remainder of the request (later features never cause a
re-resolution), and a later feature lacking the key merely has an absent
weight. -/
theorem weight_key_resolution (cfg : Cfg) (g : ℕ → ℕ) :
    (∀ feats s out k, s.chosenKey = some k →
      featLoop cfg g s feats = .ok out → out.1.chosenKey = some k) ∧
    (∀ s geom props, s.chosenKey = none →
      (pickWeightKey (propsOrEmpty props) cfg.weightParam = .error () →
        stepFeature cfg g s (.mk geom props) = .error ()) ∧
      (∀ k, pickWeightKey (propsOrEmpty props) cfg.weightParam = .ok k →
        ∃ s', stepFeature cfg g s (.mk geom props) = .ok s' ∧
          s'.chosenKey = k)) := by
  constructor
  · intro feats s out k hk h
    exact featLoop_keeps_key cfg g k feats s out hk h
  · intro s geom props hk
    constructor
    · intro herr
      simp only [stepFeature, hk, Option.isNone_none, if_true, herr]
    · intro k hok
      simp only [stepFeature, hk, Option.isNone_none, if_true, hok]
      split_ifs
      · exact ⟨_, rfl, rfl⟩
      · exact ⟨_, rfl, by simp [pointsLoop_chosenKey]⟩

/-- C7 amended witness: a request whose key is already `"population"` keeps
it across a further feature that lacks the key. -/
theorem weight_key_resolution_witness :
    (⟨[], 0, 0, some "population"⟩ : ScanState).chosenKey =
      some "population" ∧
    ((⟨[], 0, 0, some "population"⟩, true) :
      ScanState × Bool).1.chosenKey = some "population" :=
  ⟨rfl,
    (weight_key_resolution ⟨50000, "reservoir", none, none, none⟩
        (fun _ => 0)).1
      [.mk none (.dict [])] ⟨[], 0, 0, some "population"⟩
      (⟨[], 0, 0, some "population"⟩, true) "population" rfl rfl⟩

/-- A feature that reduces to zero points leaves the reservoir and the
`total_seen` counter untouched; only the weight key may advance. -/
theorem stepFeature_dict_no_points (cfg : Cfg) (g : ℕ → ℕ) (s : ScanState)
    (kvs : List (String × PVal)) (geom : Option Geom)
    (hg : devGeomToPoints geom = []) :
    stepFeature cfg g s (.mk geom (.dict kvs)) =
      .ok { s with chosenKey :=
        if s.chosenKey.isNone then pickWeightKeyDict kvs cfg.weightParam
        else s.chosenKey } := by
  cases hn : s.chosenKey.isNone <;>
    simp only [stepFeature, propsOrEmpty, hn, if_true, if_false,
      Bool.false_eq_true, pickWeightKey] <;>
    split_ifs <;>
    first
      | rfl
      | (rw [hg]; rfl)

/-- C8 counterexample: a single feature with unrecognized geometry and a
truthy non-mapping `properties` does not contribute zero points silently —
it aborts the whole request with 500 (`_pick_weight_key` calls
`props.items()` on the non-mapping, the `AttributeError` escapes to the
outer `except Exception` of the route). -/
theorem malformed_properties_abort_request :
    heatPoints (fun _ => 0) ⟨some "x", 50000, none, none, none, none⟩
        (fun _ => some ⟨[.mk (some .unknown) (.nonDict true)], false⟩) =
      .err 500 := by
  rfl

/-- C8 amended: a feature whose geometry type is unrecognized (but whose
`properties` is a mapping) contributes zero points and never aborts the
scan; but a feature whose `properties` is a truthy non-mapping raises while
the weight key is still unresolved, aborting the whole request (surfaced as
500), rather than being skipped. -/
theorem unknown_geometry_silent (cfg : Cfg) (g : ℕ → ℕ) :
    (∀ s kvs geom, devGeomToPoints geom = [] →
      ∃ s', stepFeature cfg g s (.mk geom (.dict kvs)) = .ok s' ∧
        s'.reservoir = s.reservoir ∧ s'.totalSeen = s.totalSeen) ∧
    devGeomToPoints (some .unknown) = [] ∧
    (∀ s geom, s.chosenKey = none →
      stepFeature cfg g s (.mk geom (.nonDict true)) = .error ()) := by
  refine ⟨?_, rfl, ?_⟩
  · intro s kvs geom hg
    exact ⟨_, stepFeature_dict_no_points cfg g s kvs geom hg, rfl, rfl⟩
  · intro s geom hk
    simp only [stepFeature, hk, Option.isNone_none, if_true]
    rfl

/-- C8 amended witness: the theorem applied at an unresolved-key state with
a truthy non-mapping `properties`, showing the raised error. -/
theorem unknown_geometry_silent_witness :
    stepFeature ⟨50000, "reservoir", none, none, none⟩ (fun _ => 0)
        ⟨[], 0, 0, none⟩ (.mk (some .unknown) (.nonDict true)) =
      .error () :=
  (unknown_geometry_silent ⟨50000, "reservoir", none, none, none⟩
      (fun _ => 0)).2.2 ⟨[], 0, 0, none⟩ (some .unknown) rfl

/-- At every step of the point loop the reservoir stays within capacity. -/
theorem pointsLoop_size_le_cap (cfg : Cfg) (g : ℕ → ℕ) (w : FVal) :
    ∀ pts s, (s.reservoir.length : ℤ) ≤ cfg.maxPoints →
      ((pointsLoop cfg g w s pts).reservoir.length : ℤ) ≤ cfg.maxPoints := by
  intro pts
  induction pts with
  | nil => intro s h; exact h
  | cons p rest ih =>
    intro s h
    obtain ⟨lat, lon⟩ := p
    rw [pointsLoop]
    split_ifs with h1 h2
    · apply ih
      simp only [List.length_append, List.length_singleton]
      push_cast
      omega
    · apply ih
      split_ifs <;> simp only [List.length_set] <;> exact h
    · exact h

/-- At every step of the point loop the reservoir size stays at most the
number of points seen. -/
theorem pointsLoop_size_le_total (cfg : Cfg) (g : ℕ → ℕ) (w : FVal) :
    ∀ pts s, s.reservoir.length ≤ s.totalSeen →
      (pointsLoop cfg g w s pts).reservoir.length ≤
        (pointsLoop cfg g w s pts).totalSeen := by
  intro pts
  induction pts with
  | nil => intro s h; exact h
  | cons p rest ih =>
    intro s h
    obtain ⟨lat, lon⟩ := p
    rw [pointsLoop]
    split_ifs with h1 h2
    · apply ih
      simp only [List.length_append, List.length_singleton]
      omega
    · apply ih
      split_ifs <;> simp only [List.length_set] <;> omega
    · simp only
      omega

/-- Any successful feature step is a point loop run from the incoming
state with at most the weight key changed. -/
theorem stepFeature_ok_shape (cfg : Cfg) (g : ℕ → ℕ) (s : ScanState)
    (it : FeatItem) (s' : ScanState)
    (h : stepFeature cfg g s it = .ok s') :
    ∃ k w pts, s' = pointsLoop cfg g w { s with chosenKey := k } pts := by
  cases it with
  | notDict =>
    refine ⟨s.chosenKey, .fin 1, [], ?_⟩
    simp only [stepFeature] at h
    cases h
    rfl
  | mk geom props =>
    simp only [stepFeature] at h
    cases hp : (if s.chosenKey.isNone then
        pickWeightKey (propsOrEmpty props) cfg.weightParam
      else .ok s.chosenKey) with
    | error e =>
      simp only [hp] at h
      exact Except.noConfusion h
    | ok k =>
      simp only [hp] at h
      split_ifs at h <;> cases h
      · exact ⟨k, .fin 1, [], rfl⟩
      · exact ⟨k, _, _, rfl⟩

/-- The feature loop preserves both reservoir-size invariants. -/
theorem featLoop_invariant (cfg : Cfg) (g : ℕ → ℕ) :
    ∀ feats s out, featLoop cfg g s feats = .ok out →
      ((s.reservoir.length : ℤ) ≤ cfg.maxPoints →
        (out.1.reservoir.length : ℤ) ≤ cfg.maxPoints) ∧
      (s.reservoir.length ≤ s.totalSeen →
        out.1.reservoir.length ≤ out.1.totalSeen) := by
  intro feats
  induction feats with
  | nil =>
    intro s out h
    cases h
    exact ⟨fun h1 => h1, fun h2 => h2⟩
  | cons it rest ih =>
    intro s out h
    rw [featLoop] at h
    cases hsf : stepFeature cfg g s it with
    | error e =>
      simp only [hsf] at h
      exact Except.noConfusion h
    | ok s' =>
      simp only [hsf] at h
      obtain ⟨k, w, pts, hshape⟩ := stepFeature_ok_shape cfg g s it s' hsf
      have hstep1 : (s.reservoir.length : ℤ) ≤ cfg.maxPoints →
          (s'.reservoir.length : ℤ) ≤ cfg.maxPoints := by
        intro h1
        rw [hshape]
        exact pointsLoop_size_le_cap cfg g w pts _ h1
      have hstep2 : s.reservoir.length ≤ s.totalSeen →
          s'.reservoir.length ≤ s'.totalSeen := by
        intro h2
        rw [hshape]
        exact pointsLoop_size_le_total cfg g w pts _ h2
      split at h
      · cases h
        exact ⟨hstep1, hstep2⟩
      · have := ih s' out h
        exact ⟨fun h1 => this.1 (hstep1 h1), fun h2 => this.2 (hstep2 h2)⟩

/-- Normalization emits exactly one output point per reservoir slot. -/
theorem normalizePoints_length (r : List (ℚ × ℚ × FVal)) :
    (normalizePoints r).1.length = r.length := by
  rw [normalizePoints]
  split
  · simp
  · dsimp only
    split_ifs <;> simp

/-- C3: for every valid request (positive `max`) that returns a body, the
number of returned points is at most the requested capacity and at most the
reported `total`; and the reservoir buffer never exceeds the capacity at
any step of the scan (the point loop preserves the bound from any state). -/
theorem response_size_bounds (g : ℕ → ℕ) (p : Params)
    (fs : String → Option Doc) (hmax : 1 ≤ p.max) :
    (∀ body, heatPoints g p fs = .ok body →
      (body.points.length : ℤ) ≤ p.max ∧
      body.points.length ≤ body.total) ∧
    (∀ cfg w s pts, (s.reservoir.length : ℤ) ≤ cfg.maxPoints →
      ((pointsLoop cfg g w s pts).reservoir.length : ℤ) ≤ cfg.maxPoints) := by
  constructor
  · intro body h
    simp only [heatPoints] at h
    cases hfs : fs (p.file.getD defaultFile) with
    | none =>
      simp only [hfs] at h
      exact HResp.noConfusion h
    | some doc =>
      simp only [hfs] at h
      cases hfl : featLoop (reqCfg p) g ⟨[], 0, 0, none⟩ doc.features with
      | error e =>
        simp only [hfl] at h
        exact HResp.noConfusion h
      | ok sb =>
        obtain ⟨s, consumed⟩ := sb
        simp only [hfl] at h
        have hinv := featLoop_invariant (reqCfg p) g doc.features
          ⟨[], 0, 0, none⟩ (s, consumed) hfl
        have h1 : (s.reservoir.length : ℤ) ≤ p.max :=
          hinv.1 (by simp [reqCfg]; omega)
        have h2 : s.reservoir.length ≤ s.totalSeen :=
          hinv.2 (Nat.le_refl 0)
        split_ifs at h with ht hres
        · injection h with hb
          rw [← hb]
          simp only [RespBody.points, RespBody.total, List.length_nil]
          omega
        · injection h with hb
          rw [← hb]
          simp only [RespBody.points, RespBody.total, normalizePoints_length]
          exact ⟨h1, h2⟩
  · intro cfg w s pts hle
    exact pointsLoop_size_le_cap cfg g w pts s hle

/-- C3 witness: the theorem applied to a concrete one-feature request. -/
theorem response_size_bounds_witness :
    (((RespBody.fullR [(54, 25, 1)] 1 none 1 1 1 "x" 50000
        "reservoir").points.length : ℤ) ≤ 50000 ∧
      (RespBody.fullR [(54, 25, 1)] 1 none 1 1 1 "x" 50000
        "reservoir").points.length ≤
        (RespBody.fullR [(54, 25, 1)] 1 none 1 1 1 "x" 50000
          "reservoir").total) :=
  (response_size_bounds (fun _ => 0)
      ⟨some "x", 50000, none, none, none, none⟩
      (fun _ => some ⟨[.mk (some (.point (.v 25 54))) (.dict [])], false⟩)
      (by norm_num)).1
    (.fullR [(54, 25, 1)] 1 none 1 1 1 "x" 50000 "reservoir") (by rfl)

end WBV
